import Mathlib

/-!
Shallow embedding of `src/pdf_util2.py` (pdfutil repository).

The embedding models the batch document pipeline: image-to-PDF
normalization (`convert_images_to_pdf`), document collection and merging
(`merge_pdf_in_folder`), scratch-space management (the temp-folder path
construction and the retrying cleanup loop in the `finally` block), and
password protection (`add_password_to_pdf`, `protect_files_in_folder`).

Filesystem conventions modelled:
- a directory is a list of named files in OS enumeration order;
- `glob(os.path.join(d, "*.ext"))` keeps the files of `d` whose name ends
  in `.ext` and does not start with a dot (glob never matches hidden
  files), preserving enumeration order;
- `sorted` on the glob results sorts by full path; since every path in
  one glob call shares the same directory prefix, this is lexicographic
  order of the file names, which is what the model sorts by;
- writing a file into a directory overwrites a file of the same name;
- the byte-level PDF reader/writer is abstracted: a PDF file's content is
  its page list, and an unreadable or corrupt file is `none` (PdfReader
  raises, the code catches and skips); writes of the final output are
  modelled as succeeding (the fatal write-error path is outside the
  claims considered here).
-/

namespace PdfUtil

/-- A page of some source document, identified by the document it came
from and its index inside that document. -/
structure Page where
  src : String
  idx : Nat
deriving DecidableEq, Repr

/-- Content of a file on disk, as far as the pipeline can observe it:
a PDF (readable with a page list, or unreadable), an image (decodable by
PIL or not), a spreadsheet (whether the msoffcrypto boundary call
succeeds on it), or anything else. -/
inductive FileData where
  | pdf (content : Option (List Page))
  | image (decodeOk : Bool)
  | excel (encryptOk : Bool)
  | other
deriving DecidableEq, Repr

/-- A directory entry: file name plus content. -/
structure FsFile where
  name : String
  data : FileData
deriving DecidableEq, Repr

/-- Glob helper: hidden files (leading dot) are never matched by a star
pattern. -/
def isHidden (name : String) : Bool :=
  match name.toList with
  | [] => false
  | c :: _ => c = '.'

/-- Whether a file name matches the glob pattern star-dot-ext. -/
def matchesGlob (ext : String) (name : String) : Bool :=
  ext.toList.isSuffixOf name.toList && !isHidden name

/-- Model of glob on one extension pattern inside one directory:
matching files in enumeration order. -/
def glob (dir : List FsFile) (ext : String) : List FsFile :=
  dir.filter (fun f => matchesGlob ext f.name)

/-- Extension strings used by the source. -/
def pdfExt : String := ".pdf"

def jpgExt : String := ".jpg"

def jpegExt : String := ".jpeg"

def bmpExt : String := ".bmp"

def xlsxExt : String := ".xlsx"

def xlsExt : String := ".xls"

/-- Model of the name part of `os.path.splitext(...)`: the name with its
last extension removed (for the non-hidden names glob returns, splitext
strips from the last dot; a name with no dot is unchanged). -/
def splitextBase (s : String) : String :=
  match s.toList.reverse.dropWhile (fun c => !(c = '.')) with
  | [] => s
  | _ :: rest => rest.reverse.asString

/-- Writing a file into a directory of single-page PDFs: overwrite the
entry of the same name if present, append otherwise. -/
def writeFile (folder : List (String × List Page)) (name : String)
    (content : List Page) : List (String × List Page) :=
  if folder.any (fun e => e.1 = name) then
    folder.map (fun e => if e.1 = name then (name, content) else e)
  else folder ++ [(name, content)]

/-- The image files `convert_images_to_pdf` iterates over: the
concatenation of the three glob calls, in that order (source lines
50-54). -/
def allImagePaths (dir : List FsFile) : List FsFile :=
  glob dir jpgExt ++ glob dir jpegExt ++ glob dir bmpExt

/-- Whether PIL can open and convert this file (the try block of source
lines 65-72 succeeds). -/
def isImageOk : FileData → Bool
  | .image ok => ok
  | _ => false

/-- One iteration of the conversion loop (source lines 63-78): on
success, save a single-page PDF named after the image's base name into
the temp folder (overwriting any same-named earlier conversion); on any
failure, print a warning and continue. -/
def convertImage (tempFolder : List (String × List Page)) (f : FsFile) :
    List (String × List Page) :=
  if isImageOk f.data then
    writeFile tempFolder (splitextBase f.name ++ pdfExt) [⟨f.name, 0⟩]
  else tempFolder

/-- Model of `convert_images_to_pdf` (source lines 36-80): returns
`none` when no image files are found (the function returns None before
converting), otherwise the temp folder contents after converting every
image in glob order. The scratch directory is created fresh for this
run, so the fold starts from the empty folder. -/
def convert_images_to_pdf (dir : List FsFile) :
    Option (List (String × List Page)) :=
  let imgs := allImagePaths dir
  if imgs.isEmpty then none
  else some (imgs.foldl convertImage [])

/-- Result of `PdfReader` on a file's content: the page list, or `none`
when the reader raises (non-PDF or corrupt content). -/
def readPdf : FileData → Option (List Page)
  | .pdf c => c
  | _ => none

/-- Name comparison used to model Python `sorted` on the glob results
(lexicographic on the file names, see the header comment). Python
`sorted` is a stable sort, as is `List.insertionSort`, so their outputs
coincide. -/
def nameLe (a b : FsFile) : Prop := a.name ≤ b.name

instance : DecidableRel nameLe := fun a b =>
  decidable_of_iff (a.name.toList ≤ b.name.toList) String.le_iff_toList_le.symm

/-- Name comparison for the staged single-page PDFs of the temp
folder. -/
def keyLe (a b : String × List Page) : Prop := a.1 ≤ b.1

instance : DecidableRel keyLe := fun a b =>
  decidable_of_iff (a.1.toList ≤ b.1.toList) String.le_iff_toList_le.symm

/-- The original documents of the merge: `sorted(glob(target, star.pdf))`
(source line 98), each paired with the outcome of reading it in the
merge loop. -/
def originalDocs (dir : List FsFile) : List (String × Option (List Page)) :=
  ((glob dir pdfExt).insertionSort nameLe).map (fun f => (f.name, readPdf f.data))

/-- The image-derived documents of the merge:
`sorted(glob(temp_folder, star.pdf))` (source line 101) when a temp
folder was produced, nothing otherwise. Every temp file is a well-formed
single-page PDF the run itself just wrote, so reading it yields its
page list. -/
def tempDocs (dir : List FsFile) : List (String × Option (List Page)) :=
  match convert_images_to_pdf dir with
  | none => []
  | some tf =>
    (tf.insertionSort keyLe).map (fun e => (e.1, some e.2))

/-- The full ordered merge input `all_pdf_files` (source lines 98-105):
sorted originals followed by sorted image-derived temporaries. -/
def collectDocs (dir : List FsFile) : List (String × Option (List Page)) :=
  originalDocs dir ++ tempDocs dir

/-- Pages accumulated by the merge loop (source lines 115-129): each
document is read; on failure it is skipped with a warning; on success
all its pages are appended in the document's own order. -/
def mergedPages (docs : List (String × Option (List Page))) : List Page :=
  docs.flatMap (fun e => e.2.getD [])

/-- Observable outcome of `merge_pdf_in_folder`:
`nothingToMerge` is the early return of source lines 107-109 (message
printed, no output file opened or written); `wrote ps` means the output
file was opened and written containing exactly the pages `ps` (the
per-page `compress_content_streams` pass of lines 137-143 changes
encoding only, never the page sequence). -/
inductive MergeResult where
  | nothingToMerge
  | wrote (pages : List Page)
deriving DecidableEq, Repr

/-- Model of `merge_pdf_in_folder` (source lines 84-159, the try block;
cleanup is modelled separately below). -/
def merge_pdf_in_folder (dir : List FsFile) : MergeResult :=
  let docs := collectDocs dir
  if docs.isEmpty then .nothingToMerge
  else .wrote (mergedPages docs)

/-! Scratch-space manager: the temp-folder path construction of source
lines 43-47 and the retrying cleanup loop of source lines 161-181. The
path separator is written as a slash; the claims depend only on it being
a fixed separator character. -/

/-- Retry bound of the cleanup loop (source line 165). -/
def MAX_RETRIES : Nat := 5

/-- Fixed backoff in seconds between cleanup attempts (source line
166). -/
def DELAY_SECONDS : Nat := 1

/-- Path separator string used when joining path components. -/
def pathSep : String := "/"

/-- Fixed namespace component of the scratch root (source line 43). -/
def tempsDirName : String := "pdf_utility_temps"

/-- Per-process scratch folder name component (source line 45). -/
def tempPdfsStem : String := "temp_pdfs_"

/-- The scratch base directory: system temp root joined with the fixed
namespace (source line 43). -/
def temp_dir_base (tempRoot : String) : String :=
  tempRoot ++ pathSep ++ tempsDirName

/-- The per-run scratch directory: base joined with a folder name
carrying the current process id in decimal (source line 45, the
f-string renders the pid the way `Nat.repr` does). -/
def temp_folder_path (tempRoot : String) (pid : Nat) : String :=
  temp_dir_base tempRoot ++ pathSep ++ tempPdfsStem ++ Nat.repr pid

/-- Model of `os.makedirs(path, exist_ok=True)` on a set of existing
directories (source line 47): create the directory unless it already
exists. -/
def makedirs (dirs : List String) (p : String) : List String :=
  if p ∈ dirs then dirs else dirs ++ [p]

/-- Trace of the cleanup loop of source lines 170-181. -/
structure CleanupTrace where
  /-- Number of `shutil.rmtree` calls made. -/
  attempts : Nat
  /-- Total seconds slept between attempts (one `DELAY_SECONDS` sleep
  after each failed attempt except the last). -/
  sleepSeconds : Nat
  /-- Whether the scratch directory was deleted. -/
  removed : Bool
  /-- The leftover path printed for manual deletion when every attempt
  failed, `none` otherwise. -/
  leftover : Option String
deriving DecidableEq, Repr

/-- One unrolling of the cleanup for-loop. `i` is the current loop
index, the second argument the number of iterations still to come after
this one; `rmOk i` tells whether the i-th `shutil.rmtree` call succeeds
(environmental nondeterminism). -/
def cleanupGo (rmOk : Nat → Bool) (path : String) : Nat → Nat → CleanupTrace
  | i, 0 =>
    if rmOk i then ⟨1, 0, true, none⟩
    else ⟨1, 0, false, some path⟩
  | i, left + 1 =>
    if rmOk i then ⟨1, 0, true, none⟩
    else
      let t := cleanupGo rmOk path (i + 1) left
      ⟨t.attempts + 1, t.sleepSeconds + DELAY_SECONDS, t.removed, t.leftover⟩

/-- The whole cleanup loop: `for i in range(MAX_RETRIES)` with break on
success, a report of the leftover path when the last attempt fails, and
a `DELAY_SECONDS` sleep after every other failed attempt. -/
def cleanup (rmOk : Nat → Bool) (path : String) : CleanupTrace :=
  cleanupGo rmOk path 0 (MAX_RETRIES - 1)

/-- Outcome of a whole merge run, body plus `finally` block. -/
structure RunResult where
  /-- Result of the merge body (unchanged by cleanup). -/
  result : MergeResult
  /-- Whether the per-process scratch directory was created by this run.
  The makedirs of source line 47 runs before the image glob of lines
  50-54, so the directory is created on every run, images or not. -/
  scratchCreated : Bool
  /-- Trace of the cleanup loop, or `none` when cleanup was skipped:
  `convert_images_to_pdf` returns None when no image files are found
  (source line 58), so the caller's `temp_folder` is None and the
  finally-block guard of line 163 never enters the retry loop, even
  though the scratch directory was already created at line 47. -/
  cleanupTrace : Option CleanupTrace
deriving Repr

/-- Model of a full `merge_pdf_in_folder` call including the `finally`
block (source lines 93-181): the scratch directory is created
unconditionally (line 47, before the image check), the body runs, then
cleanup is attempted only when `temp_folder` is non-None (line 163),
and the body's outcome stands regardless of how cleanup fares. -/
def merge_run (dir : List FsFile) (tempRoot : String) (pid : Nat)
    (rmOk : Nat → Bool) : RunResult :=
  { result := merge_pdf_in_folder dir
    scratchCreated := true
    cleanupTrace :=
      if (allImagePaths dir).isEmpty then none
      else some (cleanup rmOk (temp_folder_path tempRoot pid)) }

/-- Whether the run leaves the scratch directory behind on disk: it was
created but cleanup was skipped, or every deletion attempt failed. -/
def scratchResidual (r : RunResult) : Bool :=
  match r.cleanupTrace with
  | none => r.scratchCreated
  | some t => !t.removed

/-! Password protection: `add_password_to_pdf` (source lines 186-216)
and `protect_files_in_folder` (source lines 252-297). The pypdf
encryption call is a library boundary: `writer.encrypt(password)` with a
single argument uses that password as the user password and, per the
library's documented default, as the owner password too; a reader must
then supply one of the two passwords to get at the pages. -/

/-- A password-protected PDF artifact as written to disk. -/
structure EncryptedPdf where
  userPassword : String
  ownerPassword : String
  pages : List Page
deriving DecidableEq, Repr

/-- Model of `add_password_to_pdf` (source lines 186-216): read every
page of the input into a fresh writer, encrypt with the single
caller-supplied password, write the artifact. Returns `none` exactly
when the per-file try block fails (unreadable input), mirroring the
Python False return. -/
def add_password_to_pdf (input : FileData) (password : String) :
    Option EncryptedPdf :=
  match readPdf input with
  | none => none
  | some ps => some ⟨password, password, ps⟩

/-- Modelled from the spec (protection round-trip, a property of the
pypdf library boundary not implemented in this repository): opening an
encrypted PDF without a password fails; opening it with a supplied
password succeeds exactly when that password is the user or the owner
password, and then yields the stored pages. -/
def openEncrypted (e : EncryptedPdf) (supplied : Option String) :
    Option (List Page) :=
  match supplied with
  | none => none
  | some p =>
    if p = e.userPassword ∨ p = e.ownerPassword then some e.pages
    else none

/-- Whether the msoffcrypto boundary call of `add_password_to_excel`
succeeds on this file (source lines 219-249): it fails on anything that
is not a loadable workbook. -/
def protectExcel : FileData → Bool
  | .excel ok => ok
  | _ => false

/-- Observable outcome of `protect_files_in_folder`. -/
structure ProtectRun where
  /-- Whether the protected subfolder was created (makedirs on source
  line 258, before any enumeration). -/
  protectedDirCreated : Bool
  /-- The candidate count `total_files` (source line 265). -/
  totalFiles : Nat
  /-- The `success_count` accumulated over all candidates. -/
  successCount : Nat
  /-- Whether the no-candidate message of source line 268 was printed. -/
  reportedNoFiles : Bool
  /-- The pair printed by the final success message of source line 296,
  when reached. -/
  reportedCounts : Option (Nat × Nat)
  /-- Names of the candidates processed, in processing order. -/
  processedFiles : List String
  /-- Encrypted PDFs written into the protected subfolder, keyed by
  source file name. -/
  outputs : List (String × EncryptedPdf)
  /-- The Python function's return value: it has no return statement on
  the success path and a bare return on the empty path, so it always
  returns None. -/
  returnValue : Option (Nat × Nat)
deriving DecidableEq, Repr

/-- Model of `protect_files_in_folder` (source lines 252-297). -/
def protect_files_in_folder (dir : List FsFile) (password : String) :
    ProtectRun :=
  let pdf_files := glob dir pdfExt
  let excel_files := glob dir xlsxExt ++ glob dir xlsExt
  let total := pdf_files.length + excel_files.length
  if total = 0 then
    { protectedDirCreated := true, totalFiles := 0, successCount := 0,
      reportedNoFiles := true, reportedCounts := none,
      processedFiles := [], outputs := [], returnValue := none }
  else
    let pdfOutputs := pdf_files.filterMap
      (fun f => (add_password_to_pdf f.data password).map (fun e => (f.name, e)))
    let success :=
      pdfOutputs.length + (excel_files.filter (fun f => protectExcel f.data)).length
    { protectedDirCreated := true, totalFiles := total,
      successCount := success, reportedNoFiles := false,
      reportedCounts := some (success, total),
      processedFiles := pdf_files.map FsFile.name ++ excel_files.map FsFile.name,
      outputs := pdfOutputs, returnValue := none }

/-! Helper lemmas about the model. -/

theorem flatMap_eq_append_of_mem {α β : Type} (f : α → List β) (l : List α) :
    ∀ a ∈ l, ∃ u v, l.flatMap f = u ++ f a ++ v := by
  induction l with
  | nil => intro a h; cases h
  | cons x xs ih =>
    intro a h
    rcases List.mem_cons.mp h with rfl | hx
    · exact ⟨[], xs.flatMap f, by simp⟩
    · obtain ⟨u, v, huv⟩ := ih a hx
      refine ⟨f x ++ u, v, ?_⟩
      simp [huv]

theorem flatMap_erase_of_eq_nil {α β : Type} [BEq α] [LawfulBEq α]
    (f : α → List β) (l : List α) :
    ∀ a ∈ l, f a = [] → l.flatMap f = (l.erase a).flatMap f := by
  induction l with
  | nil => intro a h; cases h
  | cons x xs ih =>
    intro a h ha
    by_cases hxa : x = a
    · subst hxa
      simp [List.erase_cons, ha]
    · have hx : a ∈ xs := by
        rcases List.mem_cons.mp h with h1 | h2
        · exact absurd h1.symm hxa
        · exact h2
      simp [List.erase_cons, beq_iff_eq, hxa, ih a hx ha]

theorem writeFile_ne_nil (folder : List (String × List Page)) (name : String)
    (content : List Page) : writeFile folder name content ≠ [] := by
  unfold writeFile
  split
  · next h =>
    intro hmap
    rw [List.map_eq_nil_iff] at hmap
    subst hmap
    simp at h
  · simp

theorem convertImage_of_not_ok (acc : List (String × List Page)) (f : FsFile)
    (h : isImageOk f.data = false) : convertImage acc f = acc := by
  simp [convertImage, h]

theorem convertImage_ne_nil (acc : List (String × List Page)) (f : FsFile)
    (h : acc ≠ []) : convertImage acc f ≠ [] := by
  unfold convertImage
  split
  · exact writeFile_ne_nil _ _ _
  · exact h

theorem foldl_convertImage_ne_nil (imgs : List FsFile) :
    ∀ acc, acc ≠ [] → imgs.foldl convertImage acc ≠ [] := by
  induction imgs with
  | nil => intro acc h; exact h
  | cons x xs ih =>
    intro acc h
    exact ih (convertImage acc x) (convertImage_ne_nil acc x h)

theorem foldl_convertImage_eq_nil_iff (imgs : List FsFile) :
    imgs.foldl convertImage [] = [] ↔ ∀ f ∈ imgs, isImageOk f.data = false := by
  induction imgs with
  | nil => simp
  | cons x xs ih =>
    cases hx : isImageOk x.data with
    | false =>
      rw [List.foldl_cons, convertImage_of_not_ok _ _ hx]
      constructor
      · intro h f hf
        rcases List.mem_cons.mp hf with rfl | hfx
        · exact hx
        · exact (ih.mp h) f hfx
      · intro h
        exact ih.mpr (fun f hf => h f (List.mem_cons_of_mem x hf))
    | true =>
      constructor
      · intro h
        exfalso
        refine foldl_convertImage_ne_nil xs (convertImage [] x) ?_ h
        simp only [convertImage, hx, if_true]
        exact writeFile_ne_nil _ _ _
      · intro h
        exact absurd (h x (List.mem_cons_self x xs)) (by simp [hx])

theorem insertionSort_eq_nil_iff {α : Type} (r : α → α → Prop) [DecidableRel r]
    (l : List α) : l.insertionSort r = [] ↔ l = [] := by
  constructor
  · intro h
    have hp := List.perm_insertionSort r l
    rw [h] at hp
    exact hp.symm.eq_nil
  · intro h
    subst h
    rfl

theorem originalDocs_eq_nil_iff (dir : List FsFile) :
    originalDocs dir = [] ↔ glob dir pdfExt = [] := by
  unfold originalDocs
  rw [List.map_eq_nil_iff, insertionSort_eq_nil_iff]

theorem tempDocs_eq_nil_iff (dir : List FsFile) :
    tempDocs dir = [] ↔ ∀ f ∈ allImagePaths dir, isImageOk f.data = false := by
  unfold tempDocs convert_images_to_pdf
  cases he : (allImagePaths dir).isEmpty with
  | true =>
    rw [List.isEmpty_iff] at he
    simp [he]
  | false =>
    simp only [he, Bool.false_eq_true, if_false]
    rw [List.map_eq_nil_iff, insertionSort_eq_nil_iff,
      foldl_convertImage_eq_nil_iff]

theorem merge_eq_nothing_iff (dir : List FsFile) :
    merge_pdf_in_folder dir = MergeResult.nothingToMerge ↔ collectDocs dir = [] := by
  unfold merge_pdf_in_folder
  cases he : (collectDocs dir).isEmpty with
  | true =>
    rw [List.isEmpty_iff] at he
    simp [he]
  | false =>
    have : collectDocs dir ≠ [] := by
      intro h
      rw [h] at he
      simp at he
    simp [he, this]

/-- Directory holding a single syntactically present but unreadable PDF
file: the merge input list is nonempty, yet every read fails. -/
def cexBadPdf : String := "bad.pdf"

def cexC1dir : List FsFile := [⟨cexBadPdf, FileData.pdf none⟩]

/-- C1, counterexample: in the run on a directory whose only file is an
unreadable PDF, zero documents are successfully merged (the single input
is skipped on read failure), yet the code does not take the
nothing-to-merge path: it opens the output and writes an empty zero-page
document. -/
theorem C1_counterexample :
    collectDocs cexC1dir = [(cexBadPdf, (none : Option (List Page)))] ∧
    merge_pdf_in_folder cexC1dir = MergeResult.wrote [] := by
  decide

/-- C1, amended: the merge reports the no-op failure (and writes no
output file) exactly when no PDF files and no convertible images are
found; when inputs are found but every one of them is skipped on read
failure, the merge instead writes an empty zero-page output document. -/
theorem C1_amended (dir : List FsFile) :
    (merge_pdf_in_folder dir = MergeResult.nothingToMerge ↔
      glob dir pdfExt = [] ∧ ∀ f ∈ allImagePaths dir, isImageOk f.data = false)
    ∧ (collectDocs dir ≠ [] →
        (∀ e ∈ collectDocs dir, e.2 = (none : Option (List Page))) →
        merge_pdf_in_folder dir = MergeResult.wrote []) := by
  constructor
  · rw [merge_eq_nothing_iff]
    unfold collectDocs
    rw [List.append_eq_nil, originalDocs_eq_nil_iff, tempDocs_eq_nil_iff]
  · intro hne hall
    have hpages : mergedPages (collectDocs dir) = [] := by
      unfold mergedPages
      rw [List.flatMap_eq_nil_iff]
      intro e he
      rw [hall e he]
      rfl
    unfold merge_pdf_in_folder
    rw [if_neg (by simpa [List.isEmpty_iff] using hne), hpages]

/-- C1, witness for the amended statement at the concrete one-bad-file
directory. -/
theorem C1_amended_witness : merge_pdf_in_folder cexC1dir = MergeResult.wrote [] :=
  (C1_amended cexC1dir).2 (by decide) (by decide)

instance : IsTotal FsFile nameLe :=
  ⟨by intro a b; exact le_total a.name b.name⟩

instance : IsTrans FsFile nameLe :=
  ⟨by intro a b c hab hbc; exact le_trans hab hbc⟩

instance : IsTotal (String × List Page) keyLe :=
  ⟨by intro a b; exact le_total a.1 b.1⟩

instance : IsTrans (String × List Page) keyLe :=
  ⟨by intro a b c hab hbc; exact le_trans hab hbc⟩

theorem merge_eq_wrote_iff (dir : List FsFile) (ps : List Page) :
    merge_pdf_in_folder dir = MergeResult.wrote ps ↔
      collectDocs dir ≠ [] ∧ ps = mergedPages (collectDocs dir) := by
  unfold merge_pdf_in_folder
  cases he : (collectDocs dir).isEmpty with
  | true =>
    rw [List.isEmpty_iff] at he
    simp [he]
  | false =>
    have hne : collectDocs dir ≠ [] := by
      intro h
      rw [h] at he
      simp at he
    simp [he, hne, eq_comm]

/-- Names for the concrete directories used in witnesses and
counterexamples. -/
def nameA : String := "a.pdf"

def nameB : String := "b.pdf"

def nameZ : String := "z.jpg"

/-- The spec's own merge-ordering example: PDFs together with an image,
deliberately listed out of order. -/
def wdirC2 : List FsFile :=
  [⟨nameB, FileData.pdf (some [⟨nameB, 0⟩, ⟨nameB, 1⟩])⟩,
   ⟨nameA, FileData.pdf (some [⟨nameA, 0⟩])⟩,
   ⟨nameZ, FileData.image true⟩]

def wdirC2pages : List Page :=
  [⟨nameA, 0⟩, ⟨nameB, 0⟩, ⟨nameB, 1⟩, ⟨nameZ, 0⟩]

/-- C2: whenever the merge writes an output, its page sequence is all
pages of the original PDFs of the directory in lexicographic filename
order, followed by all pages of the normalized image-derived PDFs in
lexicographic filename order; the originals segment covers exactly the
PDF files globbed from the directory, and every successfully read
document contributes its pages contiguously in its own internal
order. -/
theorem C2_theorem (dir : List FsFile) (ps : List Page)
    (h : merge_pdf_in_folder dir = MergeResult.wrote ps) :
    ps = mergedPages (originalDocs dir) ++ mergedPages (tempDocs dir)
    ∧ ((originalDocs dir).map Prod.fst).Pairwise (fun a b => a ≤ b)
    ∧ ((tempDocs dir).map Prod.fst).Pairwise (fun a b => a ≤ b)
    ∧ (originalDocs dir).Perm
        ((glob dir pdfExt).map (fun f => (f.name, readPdf f.data)))
    ∧ (∀ e ∈ collectDocs dir, ∀ pgs, e.2 = some pgs →
        ∃ u v, ps = u ++ pgs ++ v) := by
  obtain ⟨-, hps⟩ := (merge_eq_wrote_iff dir ps).mp h
  refine ⟨?_, ?_, ?_, ?_, ?_⟩
  · rw [hps]
    unfold collectDocs mergedPages
    exact List.flatMap_append _ _ _
  · unfold originalDocs
    rw [List.map_map]
    have hs : ((glob dir pdfExt).insertionSort nameLe).Pairwise nameLe :=
      List.sorted_insertionSort nameLe (glob dir pdfExt)
    rw [List.pairwise_map]
    exact hs.imp (fun hab => hab)
  · unfold tempDocs
    cases hc : convert_images_to_pdf dir with
    | none => simp
    | some tf =>
      have hs : (tf.insertionSort keyLe).Pairwise keyLe :=
        List.sorted_insertionSort keyLe tf
      rw [List.map_map, List.pairwise_map]
      exact hs.imp (fun hab => hab)
  · unfold originalDocs
    exact (List.perm_insertionSort nameLe (glob dir pdfExt)).map
      (fun f => (f.name, readPdf f.data))
  · intro e he pgs hpgs
    obtain ⟨u, v, huv⟩ :=
      flatMap_eq_append_of_mem (fun e => e.2.getD []) (collectDocs dir) e he
    refine ⟨u, v, ?_⟩
    rw [hps]
    unfold mergedPages
    rw [huv, hpgs]
    rfl

/-- C2, witness: on the spec's example directory the merge writes
exactly the pages of a.pdf, then b.pdf, then the z.jpg-derived page, and
that sequence is the originals segment followed by the image-derived
segment. -/
theorem C2_witness :
    mergedPages (originalDocs wdirC2) ++ mergedPages (tempDocs wdirC2) =
      wdirC2pages :=
  ((C2_theorem wdirC2 wdirC2pages (by decide)).1).symm

theorem append_pdfExt_injective :
    Function.Injective (fun s : String => s ++ pdfExt) := by
  intro a b h
  have hd := congrArg String.data h
  simp only [String.data_append] at hd
  exact String.toList_inj.mp (List.append_cancel_right hd)

theorem foldl_convertImage_all_ok (imgs : List FsFile) :
    ∀ acc : List (String × List Page),
      (∀ f ∈ imgs, isImageOk f.data = true) →
      (acc.map Prod.fst ++
        imgs.map (fun f => splitextBase f.name ++ pdfExt)).Nodup →
      imgs.foldl convertImage acc =
        acc ++ imgs.map (fun f => (splitextBase f.name ++ pdfExt, [⟨f.name, 0⟩])) := by
  induction imgs with
  | nil => intro acc _ _; simp
  | cons x xs ih =>
    intro acc hok hnd
    have hx : isImageOk x.data = true := hok x (List.mem_cons_self x xs)
    rw [List.map_cons] at hnd
    have hnotin : splitextBase x.name ++ pdfExt ∉ acc.map Prod.fst := by
      intro hmem
      exact (List.disjoint_of_nodup_append hnd) hmem (List.mem_cons_self _ _)
    have hw : convertImage acc x =
        acc ++ [(splitextBase x.name ++ pdfExt, [⟨x.name, 0⟩])] := by
      simp only [convertImage, hx, if_true]
      unfold writeFile
      rw [if_neg]
      intro hany
      rw [List.any_eq_true] at hany
      obtain ⟨e, hel, hee⟩ := hany
      refine hnotin ?_
      rw [List.mem_map]
      exact ⟨e, hel, by simpa using hee⟩
    have hnd' : ((acc ++ [(splitextBase x.name ++ pdfExt, [(⟨x.name, 0⟩ : Page)])]).map
        Prod.fst ++ xs.map (fun f => splitextBase f.name ++ pdfExt)).Nodup := by
      rw [List.map_append]
      simpa [List.append_assoc] using hnd
    rw [List.foldl_cons, hw,
      ih _ (fun f hf => hok f (List.mem_cons_of_mem x hf)) hnd']
    simp

theorem sum_map_one {α : Type} (l : List α) : (l.map (fun _ => 1)).sum = l.length := by
  induction l with
  | nil => rfl
  | cons x xs ih => simp [ih, Nat.add_comm]

theorem mergedPages_map_some_length (l : List (String × List Page)) :
    (mergedPages (l.map (fun e => (e.1, some e.2)))).length =
      (l.map (fun e => e.2.length)).sum := by
  induction l with
  | nil => rfl
  | cons x xs ih =>
    unfold mergedPages at ih ⊢
    simp only [List.map_cons, List.flatMap_cons, List.length_append,
      List.sum_cons, Option.getD_some]
    rw [ih]

theorem originalDocs_pages_length (dir : List FsFile) :
    (mergedPages (originalDocs dir)).length =
      ((glob dir pdfExt).map (fun f => ((readPdf f.data).getD []).length)).sum := by
  unfold mergedPages originalDocs
  rw [List.flatMap_map, List.flatMap_def, List.length_flatten, List.map_map]
  have hp := (List.perm_insertionSort nameLe (glob dir pdfExt)).map
    (fun f => ((readPdf f.data).getD []).length)
  simpa [Function.comp] using hp.sum_eq

theorem tempDocs_pages_length (dir : List FsFile)
    (himg : ∀ f ∈ allImagePaths dir, isImageOk f.data = true)
    (hdist : ((allImagePaths dir).map (fun f => splitextBase f.name)).Nodup) :
    (mergedPages (tempDocs dir)).length = (allImagePaths dir).length := by
  unfold tempDocs convert_images_to_pdf
  cases he : (allImagePaths dir).isEmpty with
  | true =>
    rw [List.isEmpty_iff] at he
    simp [he, mergedPages]
  | false =>
    simp only [he, Bool.false_eq_true, if_false]
    have hnd : ((([] : List (String × List Page)).map Prod.fst) ++
        (allImagePaths dir).map (fun f => splitextBase f.name ++ pdfExt)).Nodup := by
      rw [List.map_nil, List.nil_append]
      simpa [List.map_map, Function.comp] using hdist.map append_pdfExt_injective
    rw [foldl_convertImage_all_ok (allImagePaths dir) [] himg hnd, List.nil_append]
    rw [mergedPages_map_some_length]
    have hp := (List.perm_insertionSort keyLe
      ((allImagePaths dir).map
        (fun f => (splitextBase f.name ++ pdfExt, [(⟨f.name, 0⟩ : Page)])))).map
      (fun e : String × List Page => e.2.length)
    rw [hp.sum_eq, List.map_map]
    exact sum_map_one (allImagePaths dir)

/-- Two images that share the base name: the second conversion
overwrites the first inside the scratch folder. -/
def nameAJpg : String := "a.jpg"

def nameABmp : String := "a.bmp"

def cexC3dir : List FsFile :=
  [⟨nameAJpg, FileData.image true⟩, ⟨nameABmp, FileData.image true⟩]

/-- C3, counterexample: the directory holds zero PDFs and two
convertible images, both of which convert without any per-item failure,
yet the merged output has one page, not zero plus two: both images have
base name a, so the a.bmp conversion overwrites the a.jpg conversion in
the scratch folder and only one normalized document survives. -/
theorem C3_counterexample :
    (allImagePaths cexC3dir).length = 2 ∧
    glob cexC3dir pdfExt = [] ∧
    convert_images_to_pdf cexC3dir = some [(nameA, [⟨nameABmp, 0⟩])] ∧
    merge_pdf_in_folder cexC3dir = MergeResult.wrote [⟨nameABmp, 0⟩] := by
  decide

/-- C3, amended: when every globbed PDF is readable, every globbed image
is convertible, and additionally the convertible images have pairwise
distinct base filenames (otherwise a later conversion overwrites an
earlier one sharing its base name), any written merge output has page
count equal to the sum of the page counts of the original PDFs plus the
number of images, each image contributing exactly one page. -/
theorem C3_amended (dir : List FsFile)
    (hpdf : ∀ f ∈ glob dir pdfExt, (readPdf f.data).isSome = true)
    (himg : ∀ f ∈ allImagePaths dir, isImageOk f.data = true)
    (hdist : ((allImagePaths dir).map (fun f => splitextBase f.name)).Nodup)
    (ps : List Page) (h : merge_pdf_in_folder dir = MergeResult.wrote ps) :
    ps.length =
      ((glob dir pdfExt).map (fun f => ((readPdf f.data).getD []).length)).sum
      + (allImagePaths dir).length := by
  obtain ⟨-, hps⟩ := (merge_eq_wrote_iff dir ps).mp h
  rw [hps]
  unfold collectDocs mergedPages
  rw [List.flatMap_append, List.length_append]
  have h1 := originalDocs_pages_length dir
  have h2 := tempDocs_pages_length dir himg hdist
  unfold mergedPages at h1 h2
  rw [h1, h2]

/-- C3, witness for the amended statement on the spec's example
directory: one one-page PDF, one two-page PDF and one image give a
four-page output. -/
theorem C3_witness :
    wdirC2pages.length =
      ((glob wdirC2 pdfExt).map (fun f => ((readPdf f.data).getD []).length)).sum
      + (allImagePaths wdirC2).length :=
  C3_amended wdirC2 (by decide) (by decide) (by decide) wdirC2pages (by decide)

theorem mem_originalDocs_of_glob {dir : List FsFile} {f : FsFile}
    (h : f ∈ glob dir pdfExt) : (f.name, readPdf f.data) ∈ originalDocs dir := by
  unfold originalDocs
  rw [List.mem_map]
  exact ⟨f, (List.perm_insertionSort nameLe (glob dir pdfExt)).mem_iff.mpr h, rfl⟩

theorem mem_collectDocs_of_mem {dir : List FsFile} {f : FsFile}
    (hmem : f ∈ dir) (hglob : matchesGlob pdfExt f.name = true) :
    (f.name, readPdf f.data) ∈ collectDocs dir := by
  unfold collectDocs
  exact List.mem_append.mpr
    (Or.inl (mem_originalDocs_of_glob (List.mem_filter.mpr ⟨hmem, hglob⟩)))

/-- C6: an input PDF that fails to open is skipped with a warning and
the merge continues: the run still writes an output whose pages are
exactly those of the remaining documents (the bad document removed from
the collected input list); a single bad file never aborts the merge. -/
theorem C6_theorem (dir : List FsFile) (f : FsFile)
    (hmem : f ∈ dir) (hglob : matchesGlob pdfExt f.name = true)
    (hbad : readPdf f.data = none)
    (hne : collectDocs dir ≠ []) :
    merge_pdf_in_folder dir =
      MergeResult.wrote
        (mergedPages ((collectDocs dir).erase (f.name, none))) := by
  have hdoc : (f.name, (none : Option (List Page))) ∈ collectDocs dir := by
    have h := mem_collectDocs_of_mem hmem hglob
    rwa [hbad] at h
  have hmp := flatMap_erase_of_eq_nil (fun e => e.2.getD [])
    (collectDocs dir) (f.name, none) hdoc rfl
  refine (merge_eq_wrote_iff dir _).mpr ⟨hne, ?_⟩
  unfold mergedPages
  exact hmp.symm

/-- Directory for the C6 witness: one good PDF next to one unreadable
one. -/
def wdirC6 : List FsFile :=
  [⟨nameA, FileData.pdf (some [⟨nameA, 0⟩])⟩, ⟨cexBadPdf, FileData.pdf none⟩]

/-- C6, witness: with a corrupt bad.pdf next to a readable a.pdf the
merge still writes, and its output is the pages of the remaining
documents. -/
theorem C6_witness :
    merge_pdf_in_folder wdirC6 =
      MergeResult.wrote
        (mergedPages ((collectDocs wdirC6).erase (cexBadPdf, none))) :=
  C6_theorem wdirC6 ⟨cexBadPdf, FileData.pdf none⟩ (by decide) (by decide)
    (by decide) (by decide)

/-- C9: a pre-existing file in the target directory whose name is the
chosen output name (a dot-pdf name) is globbed as a merge input, because
input collection happens before the output path is opened for writing;
the merge writes the collected pages and the pre-existing file's pages
appear among them contiguously. -/
theorem C9_theorem (dir : List FsFile) (outName : String) (content : List Page)
    (hmem : (⟨outName, FileData.pdf (some content)⟩ : FsFile) ∈ dir)
    (hglob : matchesGlob pdfExt outName = true) :
    merge_pdf_in_folder dir = MergeResult.wrote (mergedPages (collectDocs dir))
    ∧ ∃ u v, mergedPages (collectDocs dir) = u ++ content ++ v := by
  have hdoc : (outName, some content) ∈ collectDocs dir :=
    mem_collectDocs_of_mem (f := ⟨outName, FileData.pdf (some content)⟩) hmem hglob
  have hne : collectDocs dir ≠ [] := by
    intro h
    rw [h] at hdoc
    cases hdoc
  refine ⟨(merge_eq_wrote_iff dir _).mpr ⟨hne, rfl⟩, ?_⟩
  obtain ⟨u, v, huv⟩ := flatMap_eq_append_of_mem (fun e => e.2.getD [])
    (collectDocs dir) (outName, some content) hdoc
  exact ⟨u, v, huv⟩

/-- Name of a previously written merge output sitting in the target
directory. -/
def nameMerged : String := "merged.pdf"

def wdirC9 : List FsFile :=
  [⟨nameMerged, FileData.pdf (some [⟨nameMerged, 0⟩])⟩,
   ⟨nameA, FileData.pdf (some [⟨nameA, 0⟩])⟩]

/-- C9, witness: with an old merged.pdf present, the merge collects it
and writes an output containing its page. -/
theorem C9_witness :
    merge_pdf_in_folder wdirC9 =
      MergeResult.wrote (mergedPages (collectDocs wdirC9)) :=
  (C9_theorem wdirC9 nameMerged ([⟨nameMerged, 0⟩])
    (by decide) (by decide)).1

theorem cleanupGo_spec (rmOk : Nat → Bool) (path : String) :
    ∀ left i,
      (1 ≤ (cleanupGo rmOk path i left).attempts ∧
        (cleanupGo rmOk path i left).attempts ≤ left + 1)
      ∧ ((cleanupGo rmOk path i left).removed = true ↔
          ∃ j, i ≤ j ∧ j ≤ i + left ∧ rmOk j = true)
      ∧ ((cleanupGo rmOk path i left).removed = true →
          (cleanupGo rmOk path i left).leftover = none ∧
          (cleanupGo rmOk path i left).sleepSeconds =
            (cleanupGo rmOk path i left).attempts - 1)
      ∧ ((cleanupGo rmOk path i left).removed = false →
          (cleanupGo rmOk path i left).attempts = left + 1 ∧
          (cleanupGo rmOk path i left).sleepSeconds = left ∧
          (cleanupGo rmOk path i left).leftover = some path) := by
  intro left
  induction left with
  | zero =>
    intro i
    cases hok : rmOk i with
    | true =>
      have hgo : cleanupGo rmOk path i 0 = ⟨1, 0, true, none⟩ := by
        simp [cleanupGo, hok]
      rw [hgo]
      refine ⟨⟨le_refl 1, le_refl 1⟩, ?_, ?_, ?_⟩
      · constructor
        · intro _
          exact ⟨i, le_refl i, by omega, hok⟩
        · intro _
          rfl
      · intro _
        exact ⟨rfl, rfl⟩
      · intro h
        cases h
    | false =>
      have hgo : cleanupGo rmOk path i 0 = ⟨1, 0, false, some path⟩ := by
        simp [cleanupGo, hok]
      rw [hgo]
      refine ⟨⟨le_refl 1, le_refl 1⟩, ?_, ?_, ?_⟩
      · constructor
        · intro h
          cases h
        · rintro ⟨j, hj1, hj2, hj3⟩
          have hji : j = i := by omega
          subst hji
          rw [hok] at hj3
          cases hj3
      · intro h
        cases h
      · intro _
        exact ⟨rfl, rfl, rfl⟩
  | succ left ih =>
    intro i
    cases hok : rmOk i with
    | true =>
      have hgo : cleanupGo rmOk path i (left + 1) = ⟨1, 0, true, none⟩ := by
        simp [cleanupGo, hok]
      rw [hgo]
      dsimp only
      refine ⟨⟨le_refl 1, by omega⟩, ?_, ?_, ?_⟩
      · constructor
        · intro _
          exact ⟨i, le_refl i, by omega, hok⟩
        · intro _
          rfl
      · intro _
        exact ⟨rfl, rfl⟩
      · intro h
        cases h
    | false =>
      obtain ⟨⟨ha1, ha2⟩, hiff, hrem, hnrem⟩ := ih (i + 1)
      have hgo : cleanupGo rmOk path i (left + 1) =
          ⟨(cleanupGo rmOk path (i + 1) left).attempts + 1,
           (cleanupGo rmOk path (i + 1) left).sleepSeconds + DELAY_SECONDS,
           (cleanupGo rmOk path (i + 1) left).removed,
           (cleanupGo rmOk path (i + 1) left).leftover⟩ := by
        simp [cleanupGo, hok]
      rw [hgo]
      dsimp only
      refine ⟨⟨by omega, by omega⟩, ?_, ?_, ?_⟩
      · rw [hiff]
        constructor
        · rintro ⟨j, hj1, hj2, hj3⟩
          exact ⟨j, by omega, by omega, hj3⟩
        · rintro ⟨j, hj1, hj2, hj3⟩
          by_cases hji : j = i
          · subst hji
            rw [hok] at hj3
            cases hj3
          · exact ⟨j, by omega, by omega, hj3⟩
      · intro hr
        obtain ⟨hl, hs⟩ := hrem hr
        refine ⟨hl, ?_⟩
        simp only [DELAY_SECONDS]
        omega
      · intro hr
        obtain ⟨h1, h2, h3⟩ := hnrem hr
        refine ⟨by omega, ?_, h3⟩
        simp only [DELAY_SECONDS]
        omega

/-- Temp root used by the cleanup theorems. -/
def tmpRoot : String := "/tmp"

/-- A directory holding a PDF but no image files: the scratch directory
is still created by the makedirs of source line 47, but
`convert_images_to_pdf` returns None (line 58), so the finally-block
guard of line 163 skips the cleanup loop entirely. -/
def cexC4dir : List FsFile := [⟨nameA, FileData.pdf (some [⟨nameA, 0⟩])⟩]

/-- C4, counterexample: on a run whose directory has no image files the
scratch directory is created yet cleanup is never attempted - the trace
is empty even though deletion would have succeeded on the first try -
and the residual scratch directory remains on disk unreported, which is
not the retries-exhausted case the claim allows. -/
theorem C4_counterexample :
    (merge_run cexC4dir tmpRoot 7 (fun _ => true)).scratchCreated = true ∧
    (merge_run cexC4dir tmpRoot 7 (fun _ => true)).cleanupTrace = none ∧
    scratchResidual (merge_run cexC4dir tmpRoot 7 (fun _ => true)) = true := by
  decide

/-- C4, amended: the merge result is never affected by cleanup; the
scratch directory is created on every run (the makedirs of line 47 runs
before the image check), and the finally-block cleanup is attempted
exactly when image files were found; when attempted, it makes at most
MAX_RETRIES deletion attempts with a fixed DELAY_SECONDS backoff
between consecutive attempts, removes the directory exactly when some
attempt within the bound succeeds (reporting nothing), and on
exhaustion makes exactly MAX_RETRIES attempts and reports the leftover
scratch path; consequently a residual directory remains under the
scratch root exactly when either no images were found (cleanup skipped
and nothing reported) or every deletion attempt failed. -/
theorem C4_theorem (dir : List FsFile) (tempRoot : String) (pid : Nat)
    (rmOk : Nat → Bool) :
    (merge_run dir tempRoot pid rmOk).result = merge_pdf_in_folder dir
    ∧ (merge_run dir tempRoot pid rmOk).scratchCreated = true
    ∧ ((merge_run dir tempRoot pid rmOk).cleanupTrace = none ↔
        allImagePaths dir = [])
    ∧ (scratchResidual (merge_run dir tempRoot pid rmOk) = true ↔
        (allImagePaths dir = [] ∨ ∀ j, j < MAX_RETRIES → rmOk j = false))
    ∧ ∀ t, (merge_run dir tempRoot pid rmOk).cleanupTrace = some t →
        (1 ≤ t.attempts ∧ t.attempts ≤ MAX_RETRIES)
        ∧ (t.removed = true ↔ ∃ j, j < MAX_RETRIES ∧ rmOk j = true)
        ∧ (t.removed = true → t.leftover = none ∧
            t.sleepSeconds = (t.attempts - 1) * DELAY_SECONDS)
        ∧ (t.removed = false → t.attempts = MAX_RETRIES ∧
            t.sleepSeconds = (MAX_RETRIES - 1) * DELAY_SECONDS ∧
            t.leftover = some (temp_folder_path tempRoot pid)) := by
  refine ⟨rfl, rfl, ?_, ?_, ?_⟩
  · unfold merge_run
    cases he : (allImagePaths dir).isEmpty with
    | true =>
      rw [List.isEmpty_iff] at he
      simp [he]
    | false =>
      have : allImagePaths dir ≠ [] := by
        intro h
        rw [h] at he
        simp at he
      simp [he, this]
  · unfold scratchResidual merge_run
    cases he : (allImagePaths dir).isEmpty with
    | true =>
      rw [List.isEmpty_iff] at he
      simp [he]
    | false =>
      have hne : allImagePaths dir ≠ [] := by
        intro h
        rw [h] at he
        simp at he
      simp only [he, Bool.false_eq_true, if_false]
      obtain ⟨-, hiff, -, -⟩ :=
        cleanupGo_spec rmOk (temp_folder_path tempRoot pid) (MAX_RETRIES - 1) 0
      unfold cleanup
      constructor
      · intro hres
        refine Or.inr (fun j hj => ?_)
        cases hok : rmOk j with
        | false => rfl
        | true =>
          exfalso
          have hrm : (cleanupGo rmOk (temp_folder_path tempRoot pid) 0
              (MAX_RETRIES - 1)).removed = true :=
            hiff.mpr ⟨j, by omega, by simp [MAX_RETRIES] at hj ⊢; omega, hok⟩
          rw [hrm] at hres
          simp at hres
      · intro h
        rcases h with h | h
        · exact absurd h hne
        · cases hrem : (cleanupGo rmOk (temp_folder_path tempRoot pid) 0
              (MAX_RETRIES - 1)).removed with
          | false => simp [hrem]
          | true =>
            exfalso
            obtain ⟨j, hj1, hj2, hj3⟩ := hiff.mp hrem
            have hf := h j (by simp [MAX_RETRIES] at hj2 ⊢; omega)
            rw [hf] at hj3
            cases hj3
  · intro t ht
    unfold merge_run at ht
    cases he : (allImagePaths dir).isEmpty with
    | true =>
      rw [he] at ht
      simp at ht
    | false =>
      rw [he] at ht
      simp only [Bool.false_eq_true, if_false, Option.some.injEq] at ht
      subst ht
      obtain ⟨⟨ha1, ha2⟩, hiff, hrem, hnrem⟩ :=
        cleanupGo_spec rmOk (temp_folder_path tempRoot pid) (MAX_RETRIES - 1) 0
      unfold cleanup
      refine ⟨⟨ha1, by simpa [MAX_RETRIES] using ha2⟩, ?_, ?_, ?_⟩
      · rw [hiff]
        constructor
        · rintro ⟨j, hj1, hj2, hj3⟩
          exact ⟨j, by simp [MAX_RETRIES] at hj2 ⊢; omega, hj3⟩
        · rintro ⟨j, hj1, hj3⟩
          exact ⟨j, by omega, by simp [MAX_RETRIES] at hj1 ⊢; omega, hj3⟩
      · intro hr
        obtain ⟨hl, hs⟩ := hrem hr
        exact ⟨hl, by simpa [DELAY_SECONDS] using hs⟩
      · intro hr
        obtain ⟨h1, h2, h3⟩ := hnrem hr
        refine ⟨by simpa [MAX_RETRIES] using h1, ?_, h3⟩
        rw [h2]
        simp [MAX_RETRIES, DELAY_SECONDS]

/-- C4, witness for the amended statement: with a directory containing
an image (so cleanup is attempted) and deletion failing every time, the
cleanup makes exactly MAX_RETRIES attempts, sleeps DELAY_SECONDS
between consecutive attempts, and reports the leftover scratch path. -/
theorem C4_witness :
    (cleanup (fun _ => false) (temp_folder_path tmpRoot 7)).attempts = MAX_RETRIES ∧
    (cleanup (fun _ => false) (temp_folder_path tmpRoot 7)).sleepSeconds =
      (MAX_RETRIES - 1) * DELAY_SECONDS ∧
    (cleanup (fun _ => false) (temp_folder_path tmpRoot 7)).leftover =
      some (temp_folder_path tmpRoot 7) :=
  ((C4_theorem wdirC2 tmpRoot 7 (fun _ => false)).2.2.2.2
    (cleanup (fun _ => false) (temp_folder_path tmpRoot 7))
    (by decide)).2.2.2 (by decide)

theorem filterMap_map_length {α β γ : Type} (g : α → Option β) (h : α → β → γ)
    (l : List α) :
    (l.filterMap (fun a => (g a).map (h a))).length =
      (l.filter (fun a => (g a).isSome)).length := by
  induction l with
  | nil => rfl
  | cons x xs ih =>
    cases hx : g x with
    | none => simp [List.filterMap_cons, List.filter_cons, hx, ih]
    | some b => simp [List.filterMap_cons, List.filter_cons, hx, ih]

/-- Concrete names and password used in the protection witnesses. -/
def nameDoc : String := "doc.pdf"

def pw0 : String := "pw"

def cexC5dir : List FsFile := [⟨nameDoc, FileData.pdf (some [⟨nameDoc, 0⟩])⟩]

/-- C5, counterexample: on a directory with one protectable PDF the
operation counts one candidate and one success and prints that pair, but
its return value is None, not the pair (the Python function has no
return statement on this path). -/
theorem C5_counterexample :
    (protect_files_in_folder cexC5dir pw0).returnValue = none ∧
    (protect_files_in_folder cexC5dir pw0).successCount = 1 ∧
    (protect_files_in_folder cexC5dir pw0).totalFiles = 1 ∧
    (protect_files_in_folder cexC5dir pw0).reportedCounts = some (1, 1) := by
  decide

/-- C5, amended: the protect operation returns no value (None); it
reports the pair (successCount, totalCount) in its final message
whenever candidates exist, where totalCount is the number of candidate
PDF and spreadsheet files found and successCount the number protected
without error; it processes every candidate to completion, never
aborting on an individual failure. -/
theorem C5_amended (dir : List FsFile) (password : String) :
    (protect_files_in_folder dir password).returnValue = none
    ∧ (protect_files_in_folder dir password).totalFiles =
        (glob dir pdfExt).length + (glob dir xlsxExt ++ glob dir xlsExt).length
    ∧ (protect_files_in_folder dir password).successCount =
        ((glob dir pdfExt).filter
          (fun f => (add_password_to_pdf f.data password).isSome)).length
        + ((glob dir xlsxExt ++ glob dir xlsExt).filter
            (fun f => protectExcel f.data)).length
    ∧ (protect_files_in_folder dir password).processedFiles =
        (glob dir pdfExt).map FsFile.name ++
        (glob dir xlsxExt ++ glob dir xlsExt).map FsFile.name
    ∧ ((protect_files_in_folder dir password).totalFiles ≠ 0 →
        (protect_files_in_folder dir password).reportedCounts =
          some ((protect_files_in_folder dir password).successCount,
                (protect_files_in_folder dir password).totalFiles)) := by
  by_cases ht : glob dir pdfExt = [] ∧ glob dir xlsxExt = [] ∧ glob dir xlsExt = []
  · obtain ⟨h1, h2, h3⟩ := ht
    simp [protect_files_in_folder, h1, h2, h3]
  · refine ⟨?_, ?_, ?_, ?_, ?_⟩ <;>
      simp [protect_files_in_folder, ht, filterMap_map_length]

/-- C5, witness for the amended statement at the single-PDF directory. -/
theorem C5_witness :
    (protect_files_in_folder cexC5dir pw0).reportedCounts =
      some ((protect_files_in_folder cexC5dir pw0).successCount,
            (protect_files_in_folder cexC5dir pw0).totalFiles) :=
  (C5_amended cexC5dir pw0).2.2.2.2 (by decide)

/-- C7: protecting a readable PDF with password P yields an encrypted
artifact whose user and owner password are both P, whose page list is
the input's page list unchanged, which cannot be opened without a
password, opens fully with P, and opens with no other password. -/
theorem C7_theorem (data : FileData) (password : String) (ps : List Page)
    (h : readPdf data = some ps) :
    ∃ e, add_password_to_pdf data password = some e
      ∧ e.userPassword = password ∧ e.ownerPassword = password
      ∧ e.pages = ps
      ∧ openEncrypted e none = none
      ∧ openEncrypted e (some password) = some ps
      ∧ ∀ q, q ≠ password → openEncrypted e (some q) = none := by
  refine ⟨⟨password, password, ps⟩, ?_, rfl, rfl, rfl, rfl, ?_, ?_⟩
  · unfold add_password_to_pdf
    rw [h]
  · simp [openEncrypted]
  · intro q hq
    simp [openEncrypted, hq]

/-- C7, witness at a concrete one-page PDF and password. -/
theorem C7_witness :
    ∃ e, add_password_to_pdf (FileData.pdf (some [⟨nameDoc, 0⟩])) pw0 = some e
      ∧ e.userPassword = pw0 ∧ e.ownerPassword = pw0
      ∧ e.pages = [(⟨nameDoc, 0⟩ : Page)]
      ∧ openEncrypted e none = none
      ∧ openEncrypted e (some pw0) = some [(⟨nameDoc, 0⟩ : Page)]
      ∧ ∀ q, q ≠ pw0 → openEncrypted e (some q) = none :=
  C7_theorem (FileData.pdf (some [⟨nameDoc, 0⟩])) pw0 [⟨nameDoc, 0⟩] rfl

/-- Decimal value of a digit character. -/
def digitVal (c : Char) : Nat := c.toNat - 48

/-- Denotation of a digit string, most significant digit first. -/
def denChars (cs : List Char) : Nat := cs.foldl (fun a c => 10 * a + digitVal c) 0

theorem digitVal_digitChar : ∀ d, d < 10 → digitVal (Nat.digitChar d) = d := by
  decide

theorem toDigitsCore_append10 :
    ∀ fuel n ds, Nat.toDigitsCore 10 fuel n ds =
      Nat.toDigitsCore 10 fuel n [] ++ ds := by
  intro fuel
  induction fuel with
  | zero =>
    intro n ds
    simp [Nat.toDigitsCore]
  | succ fuel ih =>
    intro n ds
    by_cases h : n / 10 = 0
    · simp [Nat.toDigitsCore, h]
    · have h1 := ih (n / 10) (Nat.digitChar (n % 10) :: ds)
      have h2 := ih (n / 10) [Nat.digitChar (n % 10)]
      simp only [Nat.toDigitsCore, h, if_false]
      rw [h1, h2]
      simp

theorem denChars_toDigitsCore :
    ∀ n fuel, n < fuel → denChars (Nat.toDigitsCore 10 fuel n []) = n := by
  intro n
  induction n using Nat.strong_induction_on with
  | _ n ih =>
    intro fuel hf
    cases fuel with
    | zero => omega
    | succ fuel =>
      have hunf : Nat.toDigitsCore 10 (fuel + 1) n [] =
          if n / 10 = 0 then [Nat.digitChar (n % 10)]
          else Nat.toDigitsCore 10 fuel (n / 10) [Nat.digitChar (n % 10)] := rfl
      by_cases h10 : n / 10 = 0
      · rw [hunf, if_pos h10]
        have hlt : n % 10 < 10 := by omega
        simp [denChars, digitVal_digitChar (n % 10) hlt]
        omega
      · rw [hunf, if_neg h10, toDigitsCore_append10]
        have hdiv : n / 10 < n := by omega
        have hfuel : n / 10 < fuel := by omega
        have hrec := ih (n / 10) hdiv fuel hfuel
        have hlt : n % 10 < 10 := by omega
        simp [denChars, List.foldl_append] at hrec ⊢
        rw [hrec, digitVal_digitChar (n % 10) hlt]
        omega

theorem denChars_repr (n : Nat) : denChars (Nat.repr n).toList = n :=
  denChars_toDigitsCore n (n + 1) (Nat.lt_succ_self n)

theorem repr_injective (a b : Nat) (h : Nat.repr a = Nat.repr b) : a = b := by
  have hd : denChars (Nat.repr a).data = denChars (Nat.repr b).data := by rw [h]
  have h1 : denChars (Nat.repr a).data = a := denChars_repr a
  have h2 : denChars (Nat.repr b).data = b := denChars_repr b
  rw [h1, h2] at hd
  exact hd

theorem makedirs_idem (dirs : List String) (p : String) :
    makedirs (makedirs dirs p) p = makedirs dirs p := by
  have hmem : p ∈ makedirs dirs p := by
    unfold makedirs
    split
    · next h => exact h
    · simp
  rw [show makedirs (makedirs dirs p) p =
      if p ∈ makedirs dirs p then makedirs dirs p
      else makedirs dirs p ++ [p] from rfl, if_pos hmem]

/-- C8: the scratch path is the system temp root joined with the fixed
namespace folder and a folder name carrying the process id; distinct
process ids always give distinct scratch paths, and directory creation
is idempotent once the directory exists. -/
theorem C8_theorem (tempRoot : String) (dirs : List String) (pid1 pid2 : Nat) :
    temp_folder_path tempRoot pid1 =
      tempRoot ++ pathSep ++ tempsDirName ++ pathSep ++ tempPdfsStem ++
        Nat.repr pid1
    ∧ (pid1 ≠ pid2 →
        temp_folder_path tempRoot pid1 ≠ temp_folder_path tempRoot pid2)
    ∧ makedirs (makedirs dirs (temp_folder_path tempRoot pid1))
        (temp_folder_path tempRoot pid1) =
      makedirs dirs (temp_folder_path tempRoot pid1) := by
  refine ⟨rfl, ?_, ?_⟩
  · intro hne heq
    apply hne
    have hd := congrArg String.data heq
    simp only [temp_folder_path, temp_dir_base, String.data_append] at hd
    exact repr_injective pid1 pid2
      (String.toList_inj.mp (List.append_cancel_left hd))
  · exact makedirs_idem dirs (temp_folder_path tempRoot pid1)

/-- C8, witness: two concrete distinct pids give distinct scratch
paths. -/
theorem C8_witness :
    temp_folder_path tmpRoot 12345 ≠ temp_folder_path tmpRoot 54321 :=
  (C8_theorem tmpRoot [] 12345 54321).2.1 (by decide)

/-- C10: the protect operation unconditionally creates the protected
subdirectory (before candidate enumeration), so a directory with zero
candidate files still gains an empty protected folder while the
zero-work no-op is reported. -/
theorem C10_theorem (dir : List FsFile) (password : String) :
    (protect_files_in_folder dir password).protectedDirCreated = true
    ∧ ((protect_files_in_folder dir password).totalFiles = 0 →
        (protect_files_in_folder dir password).reportedNoFiles = true
        ∧ (protect_files_in_folder dir password).outputs = []
        ∧ (protect_files_in_folder dir password).successCount = 0
        ∧ (protect_files_in_folder dir password).reportedCounts = none) := by
  by_cases ht : glob dir pdfExt = [] ∧ glob dir xlsxExt = [] ∧ glob dir xlsExt = []
  · obtain ⟨h1, h2, h3⟩ := ht
    simp [protect_files_in_folder, h1, h2, h3]
  · simp [protect_files_in_folder, ht]

/-- C10, witness: an empty directory still gets the protected folder
created, reports the no-op, and writes nothing into it. -/
theorem C10_witness :
    (protect_files_in_folder ([] : List FsFile) pw0).protectedDirCreated = true ∧
    (protect_files_in_folder ([] : List FsFile) pw0).outputs = [] :=
  ⟨(C10_theorem [] pw0).1, ((C10_theorem [] pw0).2 (by decide)).2.1⟩

end PdfUtil
